import Mathlib

/-!
Verification of the modal-registry core (`ModalMediatorService`) of the
reactive-global-modals repository.

The service keeps three pieces of state:
  * `modals : Map<string, ModalState>` — modelled as an association list
    in insertion order (JavaScript `Map` preserves insertion order and
    `set` on an existing key updates the value in place);
  * `subscribers : Set<ModalSubscriber>` — modelled as a duplicate-free
    list in insertion order (JavaScript `Set` iterates in insertion order);
    individual subscriber callbacks are identified by a `Nat` tag, since
    the registry only ever stores, invokes and removes them by identity;
  * `openOrder : string[]` — a list of identifiers.

Mutation methods on the service return the updated registry together with
the list of observer invocations ("notification events") they performed,
in the order the service performed them; each event records which
subscriber was invoked and the snapshot it received.
-/

namespace ModalRegistry

/-- Source type `interface ModalState \x7b id: string; isOpen: boolean \x7d`. -/
structure ModalState where
  id : String
  isOpen : Bool
deriving DecidableEq, Repr

/-- The `Map.has(k)` operation on an association list. -/
def mapHas {α : Type} (m : List (String × α)) (k : String) : Bool :=
  m.any (fun p => p.1 == k)

/-- The `Map.get(k)` operation on an association list. -/
def mapGet {α : Type} (m : List (String × α)) (k : String) : Option α :=
  (m.find? (fun p => p.1 == k)).map Prod.snd

/-- The `Map.set(k, v)` operation on an association list: JavaScript `Map.set` updates the
value in place when the key is present (keeping its position) and appends a
new entry otherwise. -/
def mapSet {α : Type} (m : List (String × α)) (k : String) (v : α) : List (String × α) :=
  if mapHas m k then m.map (fun p => if p.1 == k then (k, v) else p)
  else m ++ [(k, v)]

/-- Subscriber callbacks are tracked by identity only. -/
abbrev Subscriber := Nat

/-- The `Set.add` operation: appends iff not already present. -/
def setAdd (s : List Subscriber) (x : Subscriber) : List Subscriber :=
  if s.contains x then s else s ++ [x]

/-- The `Set.delete` operation: removes the element (a JavaScript `Set` holds it at most
once, so filtering is the removal of that single occurrence). -/
def setDelete (s : List Subscriber) (x : Subscriber) : List Subscriber :=
  s.filter (fun y => y != x)

/-- The store component: `Map<string, ModalState>`. -/
abbrev StoreMap := List (String × ModalState)

/-- One observer invocation: which subscriber was called, and the snapshot
(`new Map(this.modals)`) it received. -/
structure NotifyEvent where
  subscriber : Subscriber
  snapshot : StoreMap
deriving DecidableEq, Repr

/-- The private state of `ModalMediatorService`. -/
structure Registry where
  modals : StoreMap
  subscribers : List Subscriber
  openOrder : List String
deriving DecidableEq, Repr

/-- The state of the singleton at construction: empty store, no
subscribers, empty order. -/
def Registry.init : Registry := ⟨[], [], []⟩

/-- Method `isModalOpen(id)`: `const modal = this.modals.get(id); return modal ? modal.isOpen : false`. -/
def isModalOpen (r : Registry) (id : String) : Bool :=
  match mapGet r.modals id with
  | some modal => modal.isOpen
  | none => false

/-- Method `getLastOpenModal()`: scan `openOrder` from the last index down,
returning the first identifier for which `isModalOpen` holds. -/
def getLastOpenModal (r : Registry) : Option String :=
  r.openOrder.reverse.find? (fun modalId => isModalOpen r modalId)

/-- Method `notify()`: builds one snapshot `new Map(this.modals)` and invokes every
subscriber with it, in the set's (insertion) iteration order. -/
def notify (r : Registry) : List NotifyEvent :=
  r.subscribers.map (fun s => ⟨s, r.modals⟩)

/-- Method `openModal(id)`: set `modals[id] = { id, isOpen: true }`, filter `id`
out of `openOrder` and push it at the end, then `notify()`. -/
def openModal (r : Registry) (id : String) : Registry × List NotifyEvent :=
  let modals := mapSet r.modals id ⟨id, true⟩
  let openOrder := (r.openOrder.filter (fun modalId => modalId != id)) ++ [id]
  let r' : Registry := { r with modals := modals, openOrder := openOrder }
  (r', notify r')

/-- Method `closeModal(id)`: if `modals.has(id)`, replace the entry with
`{ ...currentModal, isOpen: false }` and `notify()`; otherwise do nothing. -/
def closeModal (r : Registry) (id : String) : Registry × List NotifyEvent :=
  if mapHas r.modals id then
    match mapGet r.modals id with
    | some currentModal =>
        let r' : Registry := { r with modals := mapSet r.modals id { currentModal with isOpen := false } }
        (r', notify r')
    | none => (r, [])
  else (r, [])

/-- Method `subscribe(subscriber)`: add to the set, then immediately invoke the
subscriber once with `new Map(this.modals)`; the returned unsubscribe
closure is modelled by `unsubscribe` below. -/
def subscribe (r : Registry) (f : Subscriber) : Registry × List NotifyEvent :=
  let r' : Registry := { r with subscribers := setAdd r.subscribers f }
  (r', [⟨f, r.modals⟩])

/-- The closure returned by `subscribe`: `this.subscribers.delete(subscriber)`. -/
def unsubscribe (r : Registry) (f : Subscriber) : Registry :=
  { r with subscribers := setDelete r.subscribers f }

/-- The `keydown` listener registered in the constructor: on `key === 'Escape'`,
close `getLastOpenModal()` if there is one. -/
def handleKeydown (r : Registry) (key : String) : Registry × List NotifyEvent :=
  if key == "Escape" then
    match getLastOpenModal r with
    | some lastOpenModal => closeModal r lastOpenModal
    | none => (r, [])
  else (r, [])

/-!
## Notification with throwing observers

`notify` runs `this.subscribers.forEach(subscriber => subscriber(modalsCopy))`
with no `try`/`catch` anywhere in the service, so a subscriber that throws
aborts the `forEach` and the exception escapes the mutating method.  To reason
about that control flow, each subscriber identity is given a behaviour
`throws : Subscriber → Bool`; the run returns the invocations that completed
normally together with `some s` when subscriber `s` threw (ending the run),
or `none` when the whole fan-out completed.
-/

/-- Sequential fan-out over the subscriber list with throwing behaviour. -/
def notifyRun (throws : Subscriber → Bool) (subs : List Subscriber) (snap : StoreMap) :
    List NotifyEvent × Option Subscriber :=
  match subs with
  | [] => ([], none)
  | s :: rest =>
    if throws s then ([], some s)
    else
      let tail := notifyRun throws rest snap
      (⟨s, snap⟩ :: tail.1, tail.2)

/-- Method `notify()` under throwing behaviour `throws`. -/
def notifyT (throws : Subscriber → Bool) (r : Registry) : List NotifyEvent × Option Subscriber :=
  notifyRun throws r.subscribers r.modals

/-- Method `openModal(id)` under throwing behaviour: the store and order mutations
happen before `notify()`, so they stand even when an observer throws; the
second component reports the completed invocations and the escaping
exception, which `openModal` does not catch. -/
def openModalT (throws : Subscriber → Bool) (r : Registry) (id : String) :
    Registry × (List NotifyEvent × Option Subscriber) :=
  let modals := mapSet r.modals id ⟨id, true⟩
  let openOrder := (r.openOrder.filter (fun modalId => modalId != id)) ++ [id]
  let r' : Registry := { r with modals := modals, openOrder := openOrder }
  (r', notifyT throws r')

/-- Method `closeModal(id)` under throwing behaviour. -/
def closeModalT (throws : Subscriber → Bool) (r : Registry) (id : String) :
    Registry × (List NotifyEvent × Option Subscriber) :=
  if mapHas r.modals id then
    match mapGet r.modals id with
    | some currentModal =>
        let r' : Registry := { r with modals := mapSet r.modals id { currentModal with isOpen := false } }
        (r', notifyT throws r')
    | none => (r, ([], none))
  else (r, ([], none))

/-- Method `subscribe(subscriber)` under throwing behaviour: the subscriber is added
to the set first, then invoked; if it throws, the exception escapes
`subscribe` itself (the subscriber stays registered). -/
def subscribeT (throws : Subscriber → Bool) (r : Registry) (f : Subscriber) :
    Registry × (List NotifyEvent × Option Subscriber) :=
  let r' : Registry := { r with subscribers := setAdd r.subscribers f }
  if throws f then (r', ([], some f)) else (r', ([⟨f, r.modals⟩], none))

/-!
## Reference-level (heap) model

The value-level model above identifies a snapshot with the contents of the
store.  At the JavaScript reference level, however, `new Map(this.modals)`
copies only the `Map` structure: the `ModalState` *objects* stored as values
are shared between the copy and the registry's own map.  To settle whether
an observer can mutate registry-internal state through a snapshot, this model
makes object identity explicit: `ModalState` objects live on a heap of cells,
and maps store cell addresses.
-/

/-- The mutable object heap: a cell per allocated `ModalState` object,
addressed by index. -/
structure Heap where
  cells : List ModalState
deriving DecidableEq, Repr

/-- Allocate a fresh `ModalState` object (an object literal in the source). -/
def Heap.alloc (h : Heap) (m : ModalState) : Heap × Nat :=
  (⟨h.cells ++ [m]⟩, h.cells.length)

/-- Dereference an address. -/
def Heap.read (h : Heap) (a : Nat) : ModalState :=
  h.cells.getD a ⟨"", false⟩

/-- Assign to the object at an address (e.g. `obj.isOpen = v`). -/
def Heap.write (h : Heap) (a : Nat) (m : ModalState) : Heap :=
  ⟨h.cells.set a m⟩

/-- A snapshot at the reference level: the entries of `new Map(this.modals)`,
holding the same value references as the registry's own map. -/
abbrev SnapshotRefs := List (String × Nat)

/-- The service state at the reference level: `modals` maps identifiers to
heap addresses of `ModalState` objects. -/
structure RegistryH where
  heap : Heap
  modals : List (String × Nat)
  openOrder : List String
deriving DecidableEq, Repr

/-- Initial heap state of the singleton. -/
def RegistryH.init : RegistryH := ⟨⟨[]⟩, [], []⟩

/-- Method `openModal(id)` at the reference level: `{ id, isOpen: true }` allocates
a fresh object; the snapshot handed to observers by the subsequent `notify()`
is a copy of the map entries — the addresses, not the objects. -/
def openModalH (r : RegistryH) (id : String) : RegistryH × SnapshotRefs :=
  let allocated := r.heap.alloc ⟨id, true⟩
  let modals := mapSet r.modals id allocated.2
  let openOrder := (r.openOrder.filter (fun modalId => modalId != id)) ++ [id]
  let r' : RegistryH := ⟨allocated.1, modals, openOrder⟩
  (r', r'.modals)

/-- The snapshot `new Map(this.modals)` passed by `subscribe`'s immediate
invocation: a copy of the entries, sharing the value references. -/
def subscribeSnapshotH (r : RegistryH) : SnapshotRefs :=
  r.modals

/-- Method `isModalOpen(id)` at the reference level: dereference the stored object. -/
def isModalOpenH (r : RegistryH) (id : String) : Bool :=
  match mapGet r.modals id with
  | some a => (r.heap.read a).isOpen
  | none => false

/-- An observer running `snapshot.get(id).isOpen = v`: it touches only the
snapshot it received, writing through the address found there. -/
def observerWriteIsOpen (h : Heap) (snap : SnapshotRefs) (id : String) (v : Bool) : Heap :=
  match mapGet snap id with
  | some a => h.write a { h.read a with isOpen := v }
  | none => h

/-!
## Single-identifier call sequences

For the spec's property about sequences of `open(id)`/`close(id)` calls
restricted to one identifier.
-/

/-- A call restricted to a fixed identifier. -/
inductive SingleCall where
  | openCall : SingleCall
  | closeCall : SingleCall
deriving DecidableEq, Repr

/-- Perform one call on the registry (discarding the fan-out). -/
def applyCall (id : String) (r : Registry) (c : SingleCall) : Registry :=
  match c with
  | .openCall => (openModal r id).1
  | .closeCall => (closeModal r id).1

/-- Run a sequence of `open(id)`/`close(id)` calls from the initial state. -/
def runCalls (id : String) (calls : List SingleCall) : Registry :=
  calls.foldl (applyCall id) Registry.init

/-!
## Concrete scenario states

Used by the concrete parts of the dismissal-policy claim and as concrete
counterexample/witness inputs.  Subscriber `0` is registered first so that
notification fan-outs are observable.
-/

/-- One subscriber registered on the fresh registry. -/
def sub0 : Registry := (subscribe Registry.init 0).1

/-- State after `open(A); open(B); open(C)` with subscriber `0` registered. -/
def rABC : Registry :=
  (openModal (openModal (openModal sub0 "A").1 "B").1 "C").1

/-- First dismissal signal after `A, B, C`. -/
def esc1 : Registry × List NotifyEvent := handleKeydown rABC "Escape"

/-- Second dismissal signal. -/
def esc2 : Registry × List NotifyEvent := handleKeydown esc1.1 "Escape"

/-- Third dismissal signal. -/
def esc3 : Registry × List NotifyEvent := handleKeydown esc2.1 "Escape"

/-- Fourth dismissal signal. -/
def esc4 : Registry × List NotifyEvent := handleKeydown esc3.1 "Escape"

/-- State with `A` re-opened after `B` and `C`. -/
def rABCA : Registry := (openModal rABC "A").1

/-- Dismissal signal after re-opening `A`. -/
def escA : Registry × List NotifyEvent := handleKeydown rABCA "Escape"

/-- State with subscriber `0` registered and `A` opened then closed: the
store holds `A ↦ { id: A, isOpen: false }`. -/
def rAClosed : Registry := (closeModal (openModal sub0 "A").1 "A").1

/-- Reference-level run for the snapshot claim: `open("A")`, then a
subscriber receives the snapshot of `subscribe`'s immediate invocation and
assigns `snapshot.get("A").isOpen = false` through it. -/
def h1 : RegistryH := (openModalH RegistryH.init "A").1

/-- The snapshot the subscriber received. -/
def h1snap : SnapshotRefs := subscribeSnapshotH h1

/-- The registry after the observer's write through the snapshot: the
registry's own fields were never touched, only the shared heap. -/
def h2 : RegistryH := { h1 with heap := observerWriteIsOpen h1.heap h1snap "A" false }

/-!
## Association-list map lemmas
-/

theorem mapGet_cons {α : Type} (p : String × α) (m : List (String × α)) (k : String) :
    mapGet (p :: m) k = if p.1 == k then some p.2 else mapGet m k := by
  cases h : (p.1 == k) <;> simp [mapGet, List.find?_cons, h]

theorem mapHas_cons {α : Type} (p : String × α) (m : List (String × α)) (k : String) :
    mapHas (p :: m) k = (p.1 == k || mapHas m k) := by
  simp [mapHas]

theorem mapHas_eq_isSome {α : Type} (m : List (String × α)) (k : String) :
    mapHas m k = (mapGet m k).isSome := by
  induction m with
  | nil => rfl
  | cons p m ih =>
      rw [mapHas_cons, mapGet_cons]
      cases h : (p.1 == k) <;> simp [h, ih]

theorem mapGet_overwrite_ne {α : Type} (m : List (String × α)) (k k' : String) (v : α)
    (h : k' ≠ k) :
    mapGet (m.map (fun p => if p.1 == k then (k, v) else p)) k' = mapGet m k' := by
  have hkk' : ((k : String) == k') = false := by
    rw [beq_eq_false_iff_ne]
    exact fun hc => h hc.symm
  induction m with
  | nil => rfl
  | cons p m ih =>
      rw [List.map_cons, mapGet_cons, mapGet_cons]
      cases hk : (p.1 == k) with
      | false =>
          simp only [hk, Bool.false_eq_true, if_false]
          rw [ih]
      | true =>
          have hp1 : p.1 = k := by rwa [beq_iff_eq] at hk
          have hpk' : (p.1 == k') = false := hp1 ▸ hkk'
          simp only [hk, if_true, hkk', hpk', Bool.false_eq_true, if_false]
          rw [ih]

theorem mapGet_overwrite_self {α : Type} (m : List (String × α)) (k : String) (v : α)
    (h : mapHas m k = true) :
    mapGet (m.map (fun p => if p.1 == k then (k, v) else p)) k = some v := by
  induction m with
  | nil => simp [mapHas] at h
  | cons p m ih =>
      rw [mapHas_cons] at h
      rw [List.map_cons, mapGet_cons]
      cases hk : (p.1 == k) with
      | false =>
          rw [hk, Bool.false_or] at h
          simp only [hk, Bool.false_eq_true, if_false]
          exact ih h
      | true =>
          have hsk : ((k : String) == k) = true := by rw [beq_iff_eq]
          simp only [hk, if_true, hsk]

theorem mapGet_append_single_self {α : Type} (m : List (String × α)) (k : String) (v : α)
    (h : mapHas m k = false) :
    mapGet (m ++ [(k, v)]) k = some v := by
  induction m with
  | nil =>
      have hsk : ((k : String) == k) = true := by rw [beq_iff_eq]
      rw [List.nil_append, mapGet_cons]
      simp [hsk]
  | cons p m ih =>
      rw [mapHas_cons, Bool.or_eq_false_iff] at h
      rw [List.cons_append, mapGet_cons]
      simp only [h.1, Bool.false_eq_true, if_false]
      exact ih h.2

theorem mapGet_append_single_ne {α : Type} (m : List (String × α)) (k k' : String) (v : α)
    (h : k' ≠ k) :
    mapGet (m ++ [(k, v)]) k' = mapGet m k' := by
  have hkk' : ((k : String) == k') = false := by
    rw [beq_eq_false_iff_ne]
    exact fun hc => h hc.symm
  induction m with
  | nil =>
      rw [List.nil_append, mapGet_cons]
      simp [hkk']
  | cons p m ih =>
      rw [List.cons_append, mapGet_cons, mapGet_cons]
      cases hk : (p.1 == k') with
      | true => simp only [hk, if_true]
      | false =>
          simp only [hk, Bool.false_eq_true, if_false]
          exact ih

theorem mapGet_mapSet_self {α : Type} (m : List (String × α)) (k : String) (v : α) :
    mapGet (mapSet m k v) k = some v := by
  unfold mapSet
  cases h : mapHas m k with
  | true => simp only [if_true]; exact mapGet_overwrite_self m k v h
  | false => simp only [Bool.false_eq_true, if_false]; exact mapGet_append_single_self m k v h

theorem mapGet_mapSet_ne {α : Type} (m : List (String × α)) (k k' : String) (v : α)
    (h : k' ≠ k) :
    mapGet (mapSet m k v) k' = mapGet m k' := by
  unfold mapSet
  cases hm : mapHas m k with
  | true => simp only [if_true]; exact mapGet_overwrite_ne m k k' v h
  | false => simp only [Bool.false_eq_true, if_false]; exact mapGet_append_single_ne m k k' v h

theorem overwrite_eq_self {α : Type} (k : String) (v : α) :
    ∀ m : List (String × α), (m.map Prod.fst).Nodup → mapGet m k = some v →
      m.map (fun p => if p.1 == k then (k, v) else p) = m := by
  intro m
  induction m with
  | nil => intro _ _; rfl
  | cons p m ih =>
      intro hnd h
      rw [mapGet_cons] at h
      rw [List.map_cons, List.nodup_cons] at hnd
      rw [List.map_cons]
      cases hk : (p.1 == k) with
      | false =>
          rw [hk] at h
          simp only [Bool.false_eq_true, if_false] at h
          simp only [hk, Bool.false_eq_true, if_false]
          rw [ih hnd.2 h]
      | true =>
          rw [hk] at h
          simp only [if_true] at h
          have hp1 : p.1 = k := by rwa [beq_iff_eq] at hk
          have hp2 : p.2 = v := by injection h
          have hmap : m.map (fun q => if q.1 == k then (k, v) else q) = m.map id := by
            apply List.map_congr_left
            intro q hq
            have hq1 : (q.1 == k) = false := by
              rw [beq_eq_false_iff_ne]
              intro hc
              apply hnd.1
              rw [hp1, ← hc]
              exact List.mem_map_of_mem Prod.fst hq
            simp only [hq1, Bool.false_eq_true, if_false, id]
          simp only [hk, if_true]
          rw [hmap, List.map_id]
          have hpkv : (k, v) = p := by
            cases p
            cases hp1
            cases hp2
            rfl
          rw [hpkv]

theorem mapSet_get_self {α : Type} (m : List (String × α)) (k : String) (v : α)
    (hnd : (m.map Prod.fst).Nodup) (h : mapGet m k = some v) :
    mapSet m k v = m := by
  have hhas : mapHas m k = true := by
    rw [mapHas_eq_isSome, h]
    rfl
  unfold mapSet
  rw [hhas, if_pos rfl]
  exact overwrite_eq_self k v m hnd h

/-!
## Subscriber-set lemmas
-/

theorem mem_setAdd_self (l : List Subscriber) (x : Subscriber) : x ∈ setAdd l x := by
  unfold setAdd
  cases h : l.contains x with
  | true => simp only [if_true]; simpa using h
  | false =>
      simp only [Bool.false_eq_true, if_false]
      exact List.mem_append_right l (List.mem_singleton.mpr rfl)

theorem mem_setAdd_of_mem (l : List Subscriber) (x y : Subscriber) (h : y ∈ l) :
    y ∈ setAdd l x := by
  unfold setAdd
  cases hc : l.contains x with
  | true => simpa using h
  | false =>
      simp only [Bool.false_eq_true, if_false]
      exact List.mem_append_left _ h

theorem setAdd_idem (l : List Subscriber) (x : Subscriber) :
    setAdd (setAdd l x) x = setAdd l x := by
  have h : (setAdd l x).contains x = true := by
    simpa using mem_setAdd_self l x
  show (if (setAdd l x).contains x = true then setAdd l x else setAdd l x ++ [x]) = setAdd l x
  rw [h, if_pos rfl]

theorem nodup_setAdd (l : List Subscriber) (x : Subscriber) (h : l.Nodup) :
    (setAdd l x).Nodup := by
  unfold setAdd
  cases hc : l.contains x with
  | true => simpa using h
  | false =>
      simp only [Bool.false_eq_true, if_false]
      rw [List.nodup_append]
      refine ⟨h, List.nodup_singleton x, ?_⟩
      intro a ha hx
      rw [List.mem_singleton] at hx
      subst hx
      have : a ∈ l := ha
      simp [this] at hc

theorem count_setAdd_self (l : List Subscriber) (x : Subscriber) (h : l.Nodup) :
    (setAdd l x).count x = 1 :=
  List.count_eq_one_of_mem (nodup_setAdd l x h) (mem_setAdd_self l x)

theorem not_mem_setDelete_self (l : List Subscriber) (x : Subscriber) :
    x ∉ setDelete l x := by
  unfold setDelete
  intro h
  rw [List.mem_filter] at h
  simp at h

theorem mem_setDelete_iff (l : List Subscriber) (x y : Subscriber) :
    y ∈ setDelete l x ↔ y ∈ l ∧ y ≠ x := by
  unfold setDelete
  rw [List.mem_filter, bne_iff_ne]

theorem setDelete_idem (l : List Subscriber) (x : Subscriber) :
    setDelete (setDelete l x) x = setDelete l x := by
  unfold setDelete
  rw [List.filter_filter]
  simp [Bool.and_self]

/-!
## Operation-level lemmas
-/

theorem isModalOpen_eq (r : Registry) (id : String) :
    isModalOpen r id = ((mapGet r.modals id).map ModalState.isOpen).getD false := by
  unfold isModalOpen
  cases mapGet r.modals id <;> rfl

theorem openModal_fst (r : Registry) (id : String) :
    (openModal r id).1 = ⟨mapSet r.modals id ⟨id, true⟩, r.subscribers, (r.openOrder.filter (fun modalId => modalId != id)) ++ [id]⟩ := rfl

theorem openModal_snd (r : Registry) (id : String) :
    (openModal r id).2 =
      r.subscribers.map (fun s => ⟨s, mapSet r.modals id ⟨id, true⟩⟩) := rfl

theorem closeModal_of_get_some (r : Registry) (id : String) (m : ModalState)
    (h : mapGet r.modals id = some m) :
    closeModal r id = ({ r with modals := mapSet r.modals id { m with isOpen := false } },
      r.subscribers.map (fun s => ⟨s, mapSet r.modals id { m with isOpen := false }⟩)) := by
  have hhas : mapHas r.modals id = true := by
    rw [mapHas_eq_isSome, h]
    rfl
  unfold closeModal
  rw [hhas, if_pos rfl, h]
  rfl

theorem closeModal_of_has_false (r : Registry) (id : String) (h : mapHas r.modals id = false) :
    closeModal r id = (r, []) := by
  unfold closeModal
  rw [h]
  simp only [Bool.false_eq_true, if_false]

theorem subscribers_closeModal (r : Registry) (id : String) :
    (closeModal r id).1.subscribers = r.subscribers := by
  cases hg : mapGet r.modals id with
  | some m => rw [closeModal_of_get_some r id m hg]
  | none =>
      have hhas : mapHas r.modals id = false := by
        rw [mapHas_eq_isSome, hg]
        rfl
      rw [closeModal_of_has_false r id hhas]

theorem isModalOpen_openModal_self (r : Registry) (id : String) :
    isModalOpen (openModal r id).1 id = true := by
  rw [isModalOpen_eq]
  show ((mapGet (mapSet r.modals id ⟨id, true⟩) id).map ModalState.isOpen).getD false = true
  rw [mapGet_mapSet_self]
  rfl

theorem isModalOpen_openModal_ne (r : Registry) (id j : String) (h : j ≠ id) :
    isModalOpen (openModal r id).1 j = isModalOpen r j := by
  rw [isModalOpen_eq, isModalOpen_eq]
  show ((mapGet (mapSet r.modals id ⟨id, true⟩) j).map ModalState.isOpen).getD false = _
  rw [mapGet_mapSet_ne _ _ _ _ h]

theorem isModalOpen_closeModal_self (r : Registry) (id : String) :
    isModalOpen (closeModal r id).1 id = false := by
  cases hg : mapGet r.modals id with
  | some m =>
      rw [closeModal_of_get_some r id m hg, isModalOpen_eq]
      show ((mapGet (mapSet r.modals id { m with isOpen := false }) id).map ModalState.isOpen).getD false = false
      rw [mapGet_mapSet_self]
      rfl
  | none =>
      have hhas : mapHas r.modals id = false := by
        rw [mapHas_eq_isSome, hg]
        rfl
      rw [closeModal_of_has_false r id hhas, isModalOpen_eq, hg]
      rfl

theorem isModalOpen_closeModal_ne (r : Registry) (id j : String) (h : j ≠ id) :
    isModalOpen (closeModal r id).1 j = isModalOpen r j := by
  cases hg : mapGet r.modals id with
  | some m =>
      rw [closeModal_of_get_some r id m hg, isModalOpen_eq, isModalOpen_eq]
      show ((mapGet (mapSet r.modals id { m with isOpen := false }) j).map ModalState.isOpen).getD false = _
      rw [mapGet_mapSet_ne _ _ _ _ h]
  | none =>
      have hhas : mapHas r.modals id = false := by
        rw [mapHas_eq_isSome, hg]
        rfl
      rw [closeModal_of_has_false r id hhas]

theorem getLastOpenModal_isOpen (r : Registry) (j : String)
    (h : getLastOpenModal r = some j) : isModalOpen r j = true :=
  List.find?_some h

theorem handleKeydown_escape_eq (r : Registry) :
    handleKeydown r "Escape" = (match getLastOpenModal r with
      | some lastOpenModal => closeModal r lastOpenModal
      | none => (r, [])) := by
  unfold handleKeydown
  rw [if_pos (by decide)]

theorem escape_preserves_others (r : Registry) (j : String)
    (h : getLastOpenModal r ≠ some j) :
    isModalOpen (handleKeydown r "Escape").1 j = isModalOpen r j := by
  rw [handleKeydown_escape_eq]
  cases hg : getLastOpenModal r with
  | none => rfl
  | some i =>
      have hij : j ≠ i := by
        intro hc
        exact h (by rw [hg, hc])
      exact isModalOpen_closeModal_ne r i j hij

theorem escape_closes_target (r : Registry) (j : String)
    (h : getLastOpenModal r = some j) :
    isModalOpen r j = true ∧ isModalOpen (handleKeydown r "Escape").1 j = false := by
  refine ⟨getLastOpenModal_isOpen r j h, ?_⟩
  rw [handleKeydown_escape_eq, h]
  exact isModalOpen_closeModal_self r j

theorem escape_no_open_noop (r : Registry) (h : getLastOpenModal r = none) :
    handleKeydown r "Escape" = (r, []) := by
  rw [handleKeydown_escape_eq, h]

/-!
## Recency-order counting lemmas
-/

theorem count_filterNe_append_self (l : List String) (id : String) :
    ((l.filter (fun modalId => modalId != id)) ++ [id]).count id = 1 := by
  rw [List.count_append]
  have h1 : (l.filter (fun modalId => modalId != id)).count id = 0 := by
    rw [List.count_eq_zero]
    intro hmem
    rw [List.mem_filter] at hmem
    simp at hmem
  rw [h1]
  simp [List.count_singleton]

theorem count_filterNe_append_ne (l : List String) (id j : String) (h : j ≠ id) :
    ((l.filter (fun modalId => modalId != id)) ++ [id]).count j = l.count j := by
  rw [List.count_append]
  have h2 : List.count j [id] = 0 := by
    have hid : ((id : String) == j) = false := by
      rw [beq_eq_false_iff_ne]
      exact fun hc => h hc.symm
    simp [List.count_singleton, hid]
  rw [h2, Nat.add_zero]
  exact List.count_filter (by simpa using h)

/-!
## Single-identifier sequence lemmas
-/

theorem runCalls_snoc (id : String) (calls : List SingleCall) (c : SingleCall) :
    runCalls id (calls ++ [c]) = applyCall id (runCalls id calls) c := by
  unfold runCalls
  rw [List.foldl_append]
  rfl

/-!
## Fan-out with throwing observers: lemmas
-/

theorem notifyRun_none_iff (throws : Subscriber → Bool) (subs : List Subscriber)
    (snap : StoreMap) :
    (notifyRun throws subs snap).2 = none ↔ ∀ s ∈ subs, throws s = false := by
  induction subs with
  | nil => simp [notifyRun]
  | cons t rest ih =>
      unfold notifyRun
      cases ht : throws t with
      | true => simp [ht]
      | false => simp [ht, ih]

theorem notifyRun_some_throws (throws : Subscriber → Bool) (subs : List Subscriber)
    (snap : StoreMap) (s : Subscriber)
    (h : (notifyRun throws subs snap).2 = some s) : throws s = true ∧ s ∈ subs := by
  induction subs with
  | nil => simp [notifyRun] at h
  | cons t rest ih =>
      unfold notifyRun at h
      cases ht : throws t with
      | true =>
          rw [ht] at h
          simp only [if_true] at h
          injection h with h
          subst h
          exact ⟨ht, List.mem_cons_self t rest⟩
      | false =>
          rw [ht] at h
          simp only [Bool.false_eq_true, if_false] at h
          obtain ⟨h1, h2⟩ := ih h
          exact ⟨h1, List.mem_cons_of_mem t h2⟩

theorem notifyRun_events (throws : Subscriber → Bool) (subs : List Subscriber)
    (snap : StoreMap) :
    (notifyRun throws subs snap).1 =
      (subs.takeWhile (fun s => !throws s)).map (fun s => (⟨s, snap⟩ : NotifyEvent)) := by
  induction subs with
  | nil => rfl
  | cons t rest ih =>
      unfold notifyRun
      cases ht : throws t with
      | true => simp [List.takeWhile_cons, ht]
      | false => simp [List.takeWhile_cons, ht, ih]

theorem closeModalT_of_get_some (throws : Subscriber → Bool) (r : Registry) (id : String)
    (m : ModalState) (h : mapGet r.modals id = some m) :
    closeModalT throws r id = ({ r with modals := mapSet r.modals id { m with isOpen := false } },
      notifyRun throws r.subscribers (mapSet r.modals id { m with isOpen := false })) := by
  have hhas : mapHas r.modals id = true := by
    rw [mapHas_eq_isSome, h]
    rfl
  unfold closeModalT
  rw [hhas, if_pos rfl, h]
  rfl

theorem subscribeT_of_throws (throws : Subscriber → Bool) (r : Registry) (f : Subscriber)
    (hf : throws f = true) :
    subscribeT throws r f = ({ r with subscribers := setAdd r.subscribers f }, ([], some f)) := by
  unfold subscribeT
  rw [hf]
  rfl

/-!
## Claim theorems
-/

/-- C1: On a keydown whose key is `Escape`, the registry closes exactly the
most recently opened identifier that is still open: every identifier other
than the scan's target keeps its `isOpen` state, the target (when one exists)
was open and becomes closed, and when no tracked identifier is open the
signal leaves the registry unchanged and fires no notification.  Concretely,
after `open(A); open(B); open(C)` with a subscriber registered, successive
signals close `C`, then `B`, then `A`, and a fourth changes nothing and
notifies nobody; re-opening `A` after `B` and `C` makes a single signal
close `A` while `B` and `C` stay open. -/
theorem escape_dismissal_policy :
    (∀ r j, getLastOpenModal r ≠ some j →
        isModalOpen (handleKeydown r "Escape").1 j = isModalOpen r j)
  ∧ (∀ r j, getLastOpenModal r = some j →
        isModalOpen r j = true ∧ isModalOpen (handleKeydown r "Escape").1 j = false)
  ∧ (∀ r, getLastOpenModal r = none → handleKeydown r "Escape" = (r, []))
  ∧ (isModalOpen esc1.1 "A" = true ∧ isModalOpen esc1.1 "B" = true
      ∧ isModalOpen esc1.1 "C" = false)
  ∧ (isModalOpen esc2.1 "A" = true ∧ isModalOpen esc2.1 "B" = false
      ∧ isModalOpen esc2.1 "C" = false)
  ∧ (isModalOpen esc3.1 "A" = false ∧ isModalOpen esc3.1 "B" = false
      ∧ isModalOpen esc3.1 "C" = false)
  ∧ esc4 = (esc3.1, [])
  ∧ (isModalOpen escA.1 "A" = false ∧ isModalOpen escA.1 "B" = true
      ∧ isModalOpen escA.1 "C" = true) := by
  refine ⟨escape_preserves_others, escape_closes_target, escape_no_open_noop,
    ⟨?_, ?_, ?_⟩, ⟨?_, ?_, ?_⟩, ⟨?_, ?_, ?_⟩, ?_, ⟨?_, ?_, ?_⟩⟩ <;> decide

/-- Witness for C1: instantiates the frame part of the policy at the
concrete `A, B, C` state, where the scan target is `C`, not `A`. -/
theorem escape_dismissal_policy_witness :
    getLastOpenModal rABC ≠ some "A"
    ∧ isModalOpen (handleKeydown rABC "Escape").1 "A" = isModalOpen rABC "A" :=
  ⟨by decide, escape_dismissal_policy.1 rABC "A" (by decide)⟩

/-- C2 counterexample: with subscriber `0` registered and an entry for `A`
that exists with `isOpen = false`, `close(A)` is not silent — it invokes the
registered observer (with a snapshot still showing `A` closed), refuting
"the Closed → Closed transition via close does not invoke any registered
observer". -/
theorem close_closed_still_notifies :
    mapGet rAClosed.modals "A" = some ⟨"A", false⟩
    ∧ rAClosed.subscribers = [0]
    ∧ (closeModal rAClosed "A").2 = [⟨0, [("A", ⟨"A", false⟩)]⟩] := by
  refine ⟨?_, ?_, ?_⟩ <;> decide

/-- C2 amended: for an identifier whose store entry exists with
`isOpen = false`, `close(id)` changes no registry state (the stored
`PanelState` value is rewritten to an equal value), but it is not a silent
no-op: it performs a full notification fan-out, one invocation per
registered observer, exactly as `notify()` does. -/
theorem close_closed_keeps_state_but_notifies (r : Registry) (id : String) (m : ModalState)
    (hnd : (r.modals.map Prod.fst).Nodup)
    (hget : mapGet r.modals id = some m) (hclosed : m.isOpen = false) :
    (closeModal r id).1 = r ∧ (closeModal r id).2 = notify r := by
  have hm : { m with isOpen := false } = m := by
    cases m with
    | mk mid mopen => rw [← hclosed]
  rw [closeModal_of_get_some r id m hget, hm, mapSet_get_self r.modals id m hnd hget]
  exact ⟨rfl, rfl⟩

/-- Witness for the amended C2 at the concrete closed-`A` state. -/
theorem close_closed_keeps_state_but_notifies_witness :
    ((rAClosed.modals.map Prod.fst).Nodup
      ∧ mapGet rAClosed.modals "A" = some ⟨"A", false⟩)
    ∧ ((closeModal rAClosed "A").1 = rAClosed
      ∧ (closeModal rAClosed "A").2 = notify rAClosed) :=
  ⟨⟨by decide, by decide⟩,
    close_closed_keeps_state_but_notifies rAClosed "A" ⟨"A", false⟩ (by decide) (by decide) rfl⟩

/-- C3: at the reference level the snapshot handed to an observer shares its
`ModalState` objects with the registry's own map (`new Map(this.modals)` is a
shallow copy), so an observer assigning `snapshot.get("A").isOpen = false`
— touching nothing but the snapshot it received — flips what the registry
itself subsequently reports for `isOpen("A")`, even though the registry's own
fields were never written. -/
theorem snapshot_mutation_reaches_registry :
    isModalOpenH h1 "A" = true
    ∧ h2.modals = h1.modals
    ∧ h2.openOrder = h1.openOrder
    ∧ isModalOpenH h2 "A" = false := by
  refine ⟨?_, ?_, ?_, ?_⟩ <;> decide

/-- C4: for any finite sequence of `open(id)`/`close(id)` calls on a single
identifier starting from the initial registry, `isOpen(id)` afterwards is
`true` exactly when the sequence is non-empty and ends in `open(id)`; in
particular it is `false` for the empty sequence (an identifier never passed
to `open`).  `isOpen` itself is a pure function of the registry value. -/
theorem isOpen_iff_last_call_open (id : String) (calls : List SingleCall) :
    isModalOpen (runCalls id calls) id = true ↔
      calls.getLast? = some SingleCall.openCall := by
  induction calls using List.reverseRecOn with
  | nil =>
      have hrfl : isModalOpen (runCalls id []) id = false := rfl
      rw [hrfl]
      simp
  | append_singleton l c _ =>
      rw [runCalls_snoc, List.getLast?_concat]
      cases c with
      | openCall =>
          show isModalOpen (openModal (runCalls id l) id).1 id = true ↔ _
          rw [isModalOpen_openModal_self]
          simp
      | closeCall =>
          show isModalOpen (closeModal (runCalls id l) id).1 id = true ↔ _
          rw [isModalOpen_closeModal_self]
          simp

/-- C5: `open(id)` — also on an already-open identifier — stores
`{id, isOpen: true}` under `id`, makes `id` appear exactly once in
`openOrder` and as its most recent (last) element while leaving every other
identifier's multiplicity untouched, and performs exactly one notification
per registered observer (one invocation of each observer, and as many
invocations as there are observers). -/
theorem open_sets_state_recency_and_notifies (r : Registry) (id : String) (s : Subscriber)
    (hnd : r.subscribers.Nodup) (hs : s ∈ r.subscribers) :
    mapGet (openModal r id).1.modals id = some ⟨id, true⟩
    ∧ (openModal r id).1.openOrder.count id = 1
    ∧ (openModal r id).1.openOrder.getLast? = some id
    ∧ (∀ j, j ≠ id → (openModal r id).1.openOrder.count j = r.openOrder.count j)
    ∧ ((openModal r id).2.countP (fun e => e.subscriber == s)) = 1
    ∧ (openModal r id).2.length = r.subscribers.length := by
  refine ⟨?_, ?_, ?_, ?_, ?_, ?_⟩
  · show mapGet (mapSet r.modals id ⟨id, true⟩) id = some ⟨id, true⟩
    exact mapGet_mapSet_self _ _ _
  · show ((r.openOrder.filter (fun modalId => modalId != id)) ++ [id]).count id = 1
    exact count_filterNe_append_self _ _
  · show ((r.openOrder.filter (fun modalId => modalId != id)) ++ [id]).getLast? = some id
    exact List.getLast?_concat _
  · intro j hj
    show ((r.openOrder.filter (fun modalId => modalId != id)) ++ [id]).count j = _
    exact count_filterNe_append_ne _ _ _ hj
  · rw [openModal_snd, List.countP_map]
    have hcomp : ((fun e : NotifyEvent => e.subscriber == s) ∘
        (fun t => (⟨t, mapSet r.modals id ⟨id, true⟩⟩ : NotifyEvent))) = (fun t => t == s) := rfl
    rw [hcomp, ← List.count_eq_countP]
    exact List.count_eq_one_of_mem hnd hs
  · rw [openModal_snd, List.length_map]

/-- Witness for C5 at a concrete state with subscriber `0` registered. -/
theorem open_sets_state_recency_and_notifies_witness :
    (sub0.subscribers.Nodup ∧ 0 ∈ sub0.subscribers)
    ∧ ((openModal sub0 "A").2.countP (fun e => e.subscriber == 0) = 1
      ∧ (openModal sub0 "A").2.length = sub0.subscribers.length) :=
  ⟨⟨by decide, by decide⟩,
    ⟨(open_sets_state_recency_and_notifies sub0 "A" 0 (by decide) (by decide)).2.2.2.2.1,
     (open_sets_state_recency_and_notifies sub0 "A" 0 (by decide) (by decide)).2.2.2.2.2⟩⟩

/-- C6: `close(id)` for an identifier with no store entry returns the
registry completely unchanged (no entry created, store, order and
subscribers untouched) and performs zero observer invocations. -/
theorem close_unknown_is_noop (r : Registry) (id : String)
    (h : mapHas r.modals id = false) :
    closeModal r id = (r, []) :=
  closeModal_of_has_false r id h

/-- Witness for C6: closing a never-opened identifier on the fresh registry. -/
theorem close_unknown_is_noop_witness :
    mapHas Registry.init.modals "missing" = false
    ∧ closeModal Registry.init "missing" = (Registry.init, []) :=
  ⟨rfl, close_unknown_is_noop Registry.init "missing" rfl⟩

/-- C7: `subscribe(f)` performs exactly one immediate invocation of `f`,
whose snapshot is the store exactly as it is at subscription time (also when
empty), registers `f`, and mutates nothing else of the registry. -/
theorem subscribe_notifies_once_immediately (r : Registry) (f : Subscriber) :
    (subscribe r f).2 = [⟨f, r.modals⟩]
    ∧ f ∈ (subscribe r f).1.subscribers
    ∧ (subscribe r f).1.modals = r.modals
    ∧ (subscribe r f).1.openOrder = r.openOrder :=
  ⟨rfl, mem_setAdd_self r.subscribers f, rfl, rfl⟩

/-- C8: the registry catches nothing: a fan-out triggered by `open` or
`close` completes without an escaping exception exactly when no registered
observer throws; when it ends with an escaping exception the escaped
subscriber is a throwing, registered one; the invocations that did complete
are exactly the prefix of the subscriber order before the first thrower (no
isolation, no retry); and a subscriber that throws during `subscribe`'s
immediate invocation makes `subscribe` itself end in that exception while
the subscriber stays registered. -/
theorem observer_exception_propagates :
    (∀ throws r id, ((openModalT throws r id).2.2 = none ↔
        ∀ s ∈ r.subscribers, throws s = false))
  ∧ (∀ throws r id s, (openModalT throws r id).2.2 = some s →
        throws s = true ∧ s ∈ r.subscribers)
  ∧ (∀ throws r id, (openModalT throws r id).2.1 =
        (r.subscribers.takeWhile (fun s => !throws s)).map
          (fun s => (⟨s, mapSet r.modals id ⟨id, true⟩⟩ : NotifyEvent)))
  ∧ (∀ throws r id m, mapGet r.modals id = some m →
        ((closeModalT throws r id).2.2 = none ↔ ∀ s ∈ r.subscribers, throws s = false))
  ∧ (∀ throws r f, throws f = true →
        (subscribeT throws r f).2 = ([], some f)
        ∧ f ∈ (subscribeT throws r f).1.subscribers) := by
  refine ⟨?_, ?_, ?_, ?_, ?_⟩
  · intro throws r id
    exact notifyRun_none_iff throws r.subscribers _
  · intro throws r id s h
    exact notifyRun_some_throws throws r.subscribers _ s h
  · intro throws r id
    exact notifyRun_events throws r.subscribers _
  · intro throws r id m hget
    rw [closeModalT_of_get_some throws r id m hget]
    exact notifyRun_none_iff throws r.subscribers _
  · intro throws r f hf
    rw [subscribeT_of_throws throws r f hf]
    exact ⟨rfl, mem_setAdd_self r.subscribers f⟩

/-- Witness for C8: a throwing subscriber makes `subscribe` end in its
exception while staying registered. -/
theorem observer_exception_propagates_witness :
    ((fun s : Subscriber => s == 0) 0 = true)
    ∧ ((subscribeT (fun s : Subscriber => s == 0) Registry.init 0).2 = ([], some 0)
      ∧ 0 ∈ (subscribeT (fun s : Subscriber => s == 0) Registry.init 0).1.subscribers) :=
  ⟨rfl, observer_exception_propagates.2.2.2.2 (fun s : Subscriber => s == 0) Registry.init 0 rfl⟩

/-- C9: the unsubscribe handle is idempotent — running it twice yields the
same registry as running it once — after it runs the observer is no longer
registered and no `open`/`close` fan-out invokes it, and every other
observer's registration is unaffected. -/
theorem unsubscribe_idempotent_and_isolated (r : Registry) (f : Subscriber) :
    unsubscribe (unsubscribe r f) f = unsubscribe r f
    ∧ f ∉ (unsubscribe r f).subscribers
    ∧ (∀ id, ∀ e ∈ (openModal (unsubscribe r f) id).2, e.subscriber ≠ f)
    ∧ (∀ id, ∀ e ∈ (closeModal (unsubscribe r f) id).2, e.subscriber ≠ f)
    ∧ (∀ g, g ≠ f → (g ∈ (unsubscribe r f).subscribers ↔ g ∈ r.subscribers)) := by
  refine ⟨?_, ?_, ?_, ?_, ?_⟩
  · show ({ r with subscribers := setDelete (setDelete r.subscribers f) f } : Registry)
      = { r with subscribers := setDelete r.subscribers f }
    rw [setDelete_idem]
  · exact not_mem_setDelete_self r.subscribers f
  · intro id e he
    rw [openModal_snd, List.mem_map] at he
    obtain ⟨t, ht, rfl⟩ := he
    exact ((mem_setDelete_iff r.subscribers f t).mp ht).2
  · intro id e he
    cases hg : mapGet (unsubscribe r f).modals id with
    | none =>
        rw [closeModal_of_has_false _ _ (by rw [mapHas_eq_isSome, hg]; rfl)] at he
        cases he
    | some m =>
        rw [closeModal_of_get_some _ _ _ hg, List.mem_map] at he
        obtain ⟨t, ht, rfl⟩ := he
        exact ((mem_setDelete_iff r.subscribers f t).mp ht).2
  · intro g hg
    constructor
    · intro hmem
      exact ((mem_setDelete_iff r.subscribers f g).mp hmem).1
    · intro hmem
      exact (mem_setDelete_iff r.subscribers f g).mpr ⟨hmem, hg⟩

/-- Witness for C9: unsubscribing `0` leaves `1`'s registration unchanged. -/
theorem unsubscribe_idempotent_and_isolated_witness :
    (1 : Subscriber) ≠ 0
    ∧ ((1 : Subscriber) ∈ (unsubscribe (⟨[], [0, 1], []⟩ : Registry) 0).subscribers
        ↔ (1 : Subscriber) ∈ (⟨[], [0, 1], []⟩ : Registry).subscribers) :=
  ⟨by decide, (unsubscribe_idempotent_and_isolated ⟨[], [0, 1], []⟩ 0).2.2.2.2 1 (by decide)⟩

/-- C10: subscribing the same callback identity twice leaves a single
registration: the subscriber set is unchanged by the second call, it holds
`f` once, the second call still performs its own immediate invocation, every
later mutation invokes `f` exactly once, and one invocation of the handle
removes `f` entirely — afterwards no fan-out reaches `f`. -/
theorem duplicate_subscribe_deduplicated (r : Registry) (f : Subscriber)
    (hnd : r.subscribers.Nodup) :
    (subscribe (subscribe r f).1 f).1.subscribers = (subscribe r f).1.subscribers
    ∧ (subscribe (subscribe r f).1 f).1.subscribers.count f = 1
    ∧ (subscribe (subscribe r f).1 f).2 = [⟨f, (subscribe r f).1.modals⟩]
    ∧ (∀ id, ((openModal (subscribe (subscribe r f).1 f).1 id).2.countP
        (fun e => e.subscriber == f)) = 1)
    ∧ f ∉ (unsubscribe (subscribe (subscribe r f).1 f).1 f).subscribers
    ∧ (∀ id, ∀ e ∈ (openModal (unsubscribe (subscribe (subscribe r f).1 f).1 f) id).2,
        e.subscriber ≠ f) := by
  have hdual : setAdd (setAdd r.subscribers f) f = setAdd r.subscribers f :=
    setAdd_idem r.subscribers f
  refine ⟨?_, ?_, rfl, ?_, ?_, ?_⟩
  · show setAdd (setAdd r.subscribers f) f = setAdd r.subscribers f
    exact hdual
  · show (setAdd (setAdd r.subscribers f) f).count f = 1
    rw [hdual]
    exact count_setAdd_self r.subscribers f hnd
  · intro id
    rw [openModal_snd, List.countP_map]
    have hcomp : ((fun e : NotifyEvent => e.subscriber == f) ∘
        (fun t => (⟨t, mapSet (subscribe (subscribe r f).1 f).1.modals id ⟨id, true⟩⟩ :
          NotifyEvent))) = (fun t => t == f) := rfl
    rw [hcomp, ← List.count_eq_countP]
    show (setAdd (setAdd r.subscribers f) f).count f = 1
    rw [hdual]
    exact count_setAdd_self r.subscribers f hnd
  · exact not_mem_setDelete_self _ f
  · intro id e he
    rw [openModal_snd, List.mem_map] at he
    obtain ⟨t, ht, rfl⟩ := he
    exact ((mem_setDelete_iff _ f t).mp ht).2

/-- Witness for C10: double-subscribing `0` on the fresh registry leaves a
single registration of `0`. -/
theorem duplicate_subscribe_deduplicated_witness :
    (Registry.init.subscribers.Nodup)
    ∧ (subscribe (subscribe Registry.init 0).1 0).1.subscribers.count 0 = 1 :=
  ⟨List.nodup_nil, (duplicate_subscribe_deduplicated Registry.init 0 List.nodup_nil).2.1⟩

end ModalRegistry
